import Mathlib

/-!
Shallow embedding of the Real-Time Vocabulary Quiz services.

The embedding covers:
* the scoring engine (`src/scoring-engine/src/index.ts`): question table,
  difficulty bonuses, answer comparison and the `/score` route;
* the leaderboard service (`src/leaderboard-service/src/index.ts`): the Redis
  sorted set (`leaderboard:{quizId}`) and username hash
  (`leaderboard:{quizId}:usernames`) are modelled as association lists kept in
  insertion order; `ZADD NX`, `ZINCRBY`, `ZSCORE`, `ZREVRANGE ... WITHSCORES`,
  `HSET` and `HGETALL` are modelled after their documented Redis semantics
  (`ZREVRANGE` orders by score descending, equal scores by member
  lexicographically descending); `EXPIRE` is a no-op in this timeless model;
* the real-time gateway (`src/realtime-server/src/index.ts`): the
  `submit_answer` handler, its acknowledgement and its Socket.IO room emit.

State is modelled per session: the two Redis keys of a session are functions of
the quiz id alone, so operations on distinct sessions touch disjoint keys.
Scores are modelled as `Int` (the services only ever add integer deltas).
-/

/-- Association-list lookup returning the value at the first matching key. -/
def alookup {β : Type} : List (String × β) → String → Option β
  | [], _ => none
  | (k, v) :: rest, key => if k = key then some v else alookup rest key

/-- Replaces the value stored at the first occurrence of a key, leaving the
list unchanged when the key is absent. -/
def replaceFirst {β : Type} : List (String × β) → String → β → List (String × β)
  | [], _, _ => []
  | (k, v) :: rest, key, w =>
    if k = key then (k, w) :: rest else (k, v) :: replaceFirst rest key w

namespace Scoring

/-- Question difficulty, as in the scoring engine's `QUESTIONS` record. -/
inductive Difficulty : Type
  | easy
  | medium
  | hard
deriving DecidableEq

/-- One entry of the scoring engine's `QUESTIONS` record. -/
structure QuestionDef where
  answer : String
  difficulty : Difficulty
deriving DecidableEq

/-- The scoring engine's `QUESTIONS` record. -/
def QUESTIONS : List (String × QuestionDef) :=
  [("vocab-1", ⟨"serendipity", .medium⟩),
   ("vocab-2", ⟨"ephemeral", .medium⟩),
   ("vocab-3", ⟨"gregarious", .easy⟩),
   ("vocab-4", ⟨"aberration", .hard⟩)]

/-- The scoring engine's `DIFFICULTY_BONUS` record. -/
def DIFFICULTY_BONUS : Difficulty → Int
  | .easy => 50
  | .medium => 75
  | .hard => 120

/-- The scoring engine's `compareAnswers`: trim both sides, lowercase both
sides, compare. -/
def compareAnswers (expected actual : String) : Bool :=
  expected.trim.toLower == actual.trim.toLower

/-- Response body of the `/score` route. -/
structure ScoreResponse where
  correct : Bool
  delta : Int
deriving DecidableEq

/-- Request body of the `/score` route; JSON fields may be absent. -/
structure ScoreRequest where
  quizId : Option String
  userId : Option String
  questionId : Option String
  answer : Option String
deriving DecidableEq

/-- Truthiness test used by the payload guards: the field is present, is a
string, and has positive length. -/
def strOk : Option String → Bool
  | some s => decide (0 < s.length)
  | none => false

/-- The scoring engine's `isScoreRequest` payload guard. -/
def isScoreRequest (b : ScoreRequest) : Bool :=
  strOk b.quizId && strOk b.userId && strOk b.questionId && strOk b.answer

/-- Core of the `/score` handler: question lookup, answer comparison and the
delta computation `correct ? DIFFICULTY_BONUS[question?.difficulty ?? 'easy']
: -10`. -/
def scoreOf (questionId answer : String) : ScoreResponse :=
  let question := alookup QUESTIONS questionId
  let correct :=
    match question with
    | some q => compareAnswers q.answer answer
    | none => false
  let delta : Int :=
    if correct then DIFFICULTY_BONUS ((question.map QuestionDef.difficulty).getD .easy)
    else -10
  ⟨correct, delta⟩

/-- Result of the `/score` route: a JSON body or a 400 rejection. -/
inductive ScoreApiResult : Type
  | ok (r : ScoreResponse)
  | badRequest (error : String)
deriving DecidableEq

/-- The `/score` route: validate the payload, then score. -/
def scoreRoute (b : ScoreRequest) : ScoreApiResult :=
  if isScoreRequest b then
    .ok (scoreOf (b.questionId.getD "") (b.answer.getD ""))
  else
    .badRequest "Invalid score payload"

/-- The scoring operation as the spec's words state it: `correct = true` with
delta equal to the question's difficulty bonus (easy 50, medium 75, hard 120)
exactly when the question id names a known question and the submitted answer
equals the canonical answer after trimming surrounding whitespace and
lowercasing both sides; in every other case, including an unknown question id,
`correct = false` with delta `-10`. -/
def specScore (questionId answer : String) : ScoreResponse :=
  match alookup QUESTIONS questionId with
  | some q =>
    if q.answer.trim.toLower = answer.trim.toLower then
      ⟨true, match q.difficulty with
             | .easy => 50
             | .medium => 75
             | .hard => 120⟩
    else ⟨false, -10⟩
  | none => ⟨false, -10⟩

end Scoring

namespace Leaderboard

/-- Per-session Redis state of the leaderboard service: the sorted set
`leaderboard:{quizId}` and the hash `leaderboard:{quizId}:usernames`, each
modelled as an association list kept in insertion order (`ZREVRANGE` sorts on
read, so insertion order is retained here only to reason about it). -/
structure SessState where
  board : List (String × Int)
  names : List (String × String)
deriving DecidableEq

/-- Fresh session: both keys absent. -/
def emptySession : SessState := ⟨[], []⟩

/-- Redis `ZADD key NX score member`: creates the entry when the member is
absent, leaves the set untouched when it is present. -/
def zaddNX (board : List (String × Int)) (score : Int) (member : String) :
    List (String × Int) :=
  match alookup board member with
  | some _ => board
  | none => board ++ [(member, score)]

/-- Redis `ZINCRBY key delta member`: atomically adds the delta and returns
the resulting score; creates the entry at the delta when absent. -/
def zincrby (board : List (String × Int)) (delta : Int) (member : String) :
    List (String × Int) × Int :=
  match alookup board member with
  | some s => (replaceFirst board member (s + delta), s + delta)
  | none => (board ++ [(member, delta)], delta)

/-- Redis `HSET key field value`: stores the value, overwriting any previous
value at the field. -/
def hset (h : List (String × String)) (field value : String) :
    List (String × String) :=
  match alookup h field with
  | some _ => replaceFirst h field value
  | none => h ++ [(field, value)]

/-- Lexicographic strict order on character lists, mirroring the byte order
Redis uses for members with equal scores. -/
def charsLt : List Char → List Char → Bool
  | [], [] => false
  | [], _ :: _ => true
  | _ :: _, [] => false
  | a :: as, b :: bs => if a < b then true else if b < a then false else charsLt as bs

/-- Lexicographic strict order on member strings. -/
def strLtB (s t : String) : Bool := charsLt s.data t.data

/-- Comparison realising the order `ZREVRANGE` returns: score descending,
equal scores by member lexicographically descending. -/
def zrevLE (x y : String × Int) : Bool :=
  decide (y.2 < x.2) || (decide (x.2 = y.2) && !strLtB x.1 y.1)

/-- Inserts an entry into a list sorted by `zrevLE`, keeping it sorted. -/
def insertBoard (x : String × Int) : List (String × Int) → List (String × Int)
  | [] => [x]
  | y :: rest => if zrevLE x y then x :: y :: rest else y :: insertBoard x rest

/-- Sorts a session's entries into the order `ZREVRANGE` returns them. -/
def sortBoard : List (String × Int) → List (String × Int)
  | [] => []
  | x :: rest => insertBoard x (sortBoard rest)

/-- Redis `ZREVRANGE key 0 19 WITHSCORES` as issued by
`buildLeaderboardResponse`: the twenty highest entries, score descending,
ties by member descending. -/
def zrevrangeTop (board : List (String × Int)) : List (String × Int) :=
  (sortBoard board).take 20

/-- One row of the leaderboard JSON. -/
structure LeaderboardEntry where
  userId : String
  username : String
  score : Int
  rank : Nat
deriving DecidableEq

/-- Body of a successful leaderboard-service response. -/
structure LeaderboardResponse where
  quizId : String
  leaderboard : List LeaderboardEntry
  userScore : Int
deriving DecidableEq

/-- The accumulation loop of `buildLeaderboardResponse`: walks the
`ZREVRANGE` result, attaching the 1-based rank and the username from the hash
(falling back to `Anonymous`). -/
def withRanks (names : List (String × String)) : Nat → List (String × Int) →
    List LeaderboardEntry
  | _, [] => []
  | i, (id, score) :: rest =>
    ⟨id, (alookup names id).getD "Anonymous", score, i + 1⟩ ::
      withRanks names (i + 1) rest

/-- The service's `buildLeaderboardResponse`: top-20 read, username hash read,
and the requester's score via `ZSCORE` (skipped when the query carries no
user id or an empty one — both are falsy in the source). -/
def buildLeaderboardResponse (quizId : String) (userId : Option String)
    (st : SessState) : LeaderboardResponse :=
  let leaderboard := withRanks st.names 0 (zrevrangeTop st.board)
  let userScore : Int :=
    match userId with
    | some uid => if uid = "" then 0 else (alookup st.board uid).getD 0
    | none => 0
  ⟨quizId, leaderboard, userScore⟩

/-- JSON body received by the join and score routes; fields may be absent. -/
structure ReqBody where
  userId : Option String
  username : Option String
  delta : Option Int
deriving DecidableEq

/-- The service's `isJoinRequest` payload guard. -/
def isJoinRequest (b : ReqBody) : Bool :=
  Scoring.strOk b.userId && Scoring.strOk b.username

/-- The service's `isScoreRequest` payload guard. -/
def isScoreRequest (b : ReqBody) : Bool :=
  isJoinRequest b && b.delta.isSome

/-- Outcome of a leaderboard-service request: 200 with a body, 400 from a
payload guard, 500 from `handleError`, or no matching route. -/
inductive ApiResult : Type
  | ok (r : LeaderboardResponse)
  | badRequest (error : String)
  | serverError (error : String)
  | notFound
deriving DecidableEq

/-- The service's `ensureUser`: `ZADD NX 0` into the sorted set and `HSET` of
the username, pipelined together (the two `EXPIRE` calls are no-ops in this
timeless model). -/
def ensureUser (userId username : String) (st : SessState) : SessState :=
  ⟨zaddNX st.board 0 userId, hset st.names userId username⟩

/-- The `POST /sessions/:quizId/join` handler. -/
def joinEndpoint (quizId : String) (b : ReqBody) (st : SessState) :
    SessState × ApiResult :=
  if isJoinRequest b then
    let st1 := ensureUser (b.userId.getD "") (b.username.getD "") st
    (st1, .ok (buildLeaderboardResponse quizId b.userId st1))
  else (st, .badRequest "Invalid join payload")

/-- The `POST /sessions/:quizId/score` handler: ensure the user, `ZINCRBY` the
delta (its return value is not bound by the source and is discarded here the
same way), then rebuild the response, re-reading the score via `ZSCORE`. -/
def scoreEndpoint (quizId : String) (b : ReqBody) (st : SessState) :
    SessState × ApiResult :=
  if isScoreRequest b then
    let st1 := ensureUser (b.userId.getD "") (b.username.getD "") st
    let incr := zincrby st1.board (b.delta.getD 0) (b.userId.getD "")
    let st2 : SessState := ⟨incr.1, st1.names⟩
    (st2, .ok (buildLeaderboardResponse quizId b.userId st2))
  else (st, .badRequest "Invalid score payload")

/-- The `GET /sessions/:quizId` handler: a pure read. -/
def getEndpoint (quizId : String) (userId : Option String) (st : SessState) :
    SessState × ApiResult :=
  (st, .ok (buildLeaderboardResponse quizId userId st))

/-- A request as routed by Express. -/
inductive Request : Type
  | getBoard (quizId : String) (userId : Option String)
  | join (quizId : String) (b : ReqBody)
  | score (quizId : String) (b : ReqBody)

/-- Express routing: a `:quizId` path parameter matches one or more
characters, so a request with an empty session id matches no route and falls
through to the default 404 without running any handler. -/
def dispatch (req : Request) (st : SessState) : SessState × ApiResult :=
  match req with
  | .getBoard q u => if q = "" then (st, .notFound) else getEndpoint q u st
  | .join q b => if q = "" then (st, .notFound) else joinEndpoint q b st
  | .score q b => if q = "" then (st, .notFound) else scoreEndpoint q b st

/-- Redis commands the service can issue; `publish` is listed so that its
absence from every trace is expressible. -/
inductive RedisCmd : Type
  | zadd
  | hset
  | expire
  | zincrby
  | zrevrange
  | zscore
  | hgetall
  | publish
deriving DecidableEq

/-- Commands issued by one `ensureUser` pipeline, in program order. -/
def ensureUserCmds : List RedisCmd := [.zadd, .hset, .expire, .expire]

/-- Commands issued by a validated join request, in program order. -/
def joinCmds : List RedisCmd := ensureUserCmds ++ [.zrevrange, .zscore, .hgetall]

/-- Commands issued by a validated score request, in program order. -/
def scoreCmds : List RedisCmd :=
  ensureUserCmds ++ [.zincrby, .zrevrange, .zscore, .hgetall]

/-- Store commands a dispatched request issues: none when routing fails or the
payload guard rejects (both precede any Redis call in the source). -/
def dispatchTrace (req : Request) : List RedisCmd :=
  match req with
  | .getBoard q _ => if q = "" then [] else [.zrevrange, .zscore, .hgetall]
  | .join q b => if q = "" then [] else if isJoinRequest b then joinCmds else []
  | .score q b => if q = "" then [] else if isScoreRequest b then scoreCmds else []

/-- Abort-on-first-failure execution of a handler's command sequence: the
handlers run inside a single `try`/`catch`, so the first rejected store call
jumps to `handleError` and nothing is reissued. Returns how many calls were
attempted and whether the handler succeeded; the failure oracle says whether
the i-th attempted call fails. -/
def runCalls : List RedisCmd → (Nat → Bool) → Nat × Bool
  | [], _ => (0, true)
  | _ :: rest, f =>
    if f 0 then (1, false)
    else
      let r := runCalls rest (fun i => f (i + 1))
      (r.1 + 1, r.2)

/-- Engine operations of one session, as invoked through the service's
routes. -/
inductive Op : Type
  | join (b : ReqBody)
  | score (b : ReqBody)
  | read (userId : Option String)

/-- State reached after one operation. -/
def applyOp (q : String) (st : SessState) : Op → SessState
  | .join b => (joinEndpoint q b st).1
  | .score b => (scoreEndpoint q b st).1
  | .read u => (getEndpoint q u st).1

/-- State of a session after a sequence of operations, starting empty. -/
def run (q : String) (ops : List Op) : SessState :=
  ops.foldl (applyOp q) emptySession

/-- Extracts the requester-score field from a successful result. -/
def userScoreOf : ApiResult → Option Int
  | .ok r => some r.userScore
  | _ => none

/-- Classifies results a caller can tell apart from both success (200) and the
`handleError` transient-failure shape (500): the 400 payload rejection and the
router 404. -/
def isClientReject : ApiResult → Bool
  | .badRequest _ => true
  | .notFound => true
  | _ => false

end Leaderboard

namespace Realtime

/-- Payload of the gateway's `submit_answer` socket event. -/
structure SubmitAnswerPayload where
  quizId : Option String
  userId : Option String
  username : Option String
  questionId : Option String
  answer : Option String
deriving DecidableEq

/-- The gateway's `isSubmitPayload` guard. -/
def isSubmitPayload (p : SubmitAnswerPayload) : Bool :=
  Scoring.strOk p.quizId && Scoring.strOk p.userId && Scoring.strOk p.username &&
    Scoring.strOk p.questionId && Scoring.strOk p.answer

/-- The gateway's `makeRoomId`. -/
def makeRoomId (quizId : String) : String := "quiz:" ++ quizId

/-- The acknowledgement sent back to the submitting socket. -/
inductive Ack : Type
  | ok (correct : Bool) (delta : Int) (newScore : Int)
  | error (msg : String)
deriving DecidableEq

/-- One Socket.IO broadcast: `io.to(room).emit(event, payload)`. This reaches
only the sockets joined to that room on this gateway instance. -/
structure EmitEvent where
  room : String
  event : String
  payload : Leaderboard.LeaderboardResponse
deriving DecidableEq

/-- The gateway's `submit_answer` handler: validate, call the scoring engine,
forward the delta to the leaderboard service, acknowledge, and broadcast the
returned snapshot to the quiz room of this instance. A non-2xx response from
either downstream call throws in `axios` and lands in the `catch`, which only
acknowledges an error. -/
def submitAnswer (p : SubmitAnswerPayload) (st : Leaderboard.SessState) :
    Leaderboard.SessState × Ack × List EmitEvent :=
  if isSubmitPayload p then
    match Scoring.scoreRoute ⟨p.quizId, p.userId, p.questionId, p.answer⟩ with
    | .badRequest _ => (st, .error "Failed to process answer", [])
    | .ok scoring =>
      let result := Leaderboard.scoreEndpoint (p.quizId.getD "")
        ⟨p.userId, p.username, some scoring.delta⟩ st
      match result.2 with
      | .ok data =>
        (result.1, .ok scoring.correct scoring.delta data.userScore,
          [⟨makeRoomId (p.quizId.getD ""), "leaderboard_update", data⟩])
      | _ => (result.1, .error "Failed to process answer", [])
  else (st, .error "Invalid answer payload", [])

end Realtime

namespace Leaderboard

/-- Position at which a participant's entry was inserted into a session's
ranked store: `ensureParticipant` appends, so list position is join order. -/
def joinIdx (board : List (String × Int)) (id : String) : Nat :=
  board.findIdx (fun p => p.1 == id)

/-- Boolean pairwise check: the relation holds between every element and
every later element. -/
def pairwiseB {α : Type} (r : α → α → Bool) : List α → Bool
  | [] => true
  | a :: l => l.all (r a) && pairwiseB r l

/-- The ordering claim C1 states for `topN`, in the spec's words: entries
sorted descending by score, with ties broken by insertion order (the
participant whose entry was created by the earliest `ensureParticipant` call
ranks first). -/
def sortedByScoreThenJoinOrder (board : List (String × Int))
    (entries : List LeaderboardEntry) : Bool :=
  pairwiseB (fun a b =>
    decide (b.score < a.score) ||
      (decide (a.score = b.score) &&
        decide (joinIdx board a.userId < joinIdx board b.userId))) entries

/-- The ordering the code actually realises on leaderboard rows: score
descending, and for equal scores the earlier row's participant id is not
lexicographically below the later one's (reverse lexicographic order). -/
def entryOrdered (a b : LeaderboardEntry) : Prop :=
  b.score < a.score ∨ (a.score = b.score ∧ strLtB a.userId b.userId = false)

end Leaderboard

/-- C10: the scoring service's score operation is a deterministic, total
function of (questionId, answer) alone: `scoreOf` coincides with the
spec-worded `specScore` everywhere, and for every valid request the `/score`
route answers exactly `specScore questionId answer`. -/
theorem scoring_matches_spec (b : Scoring.ScoreRequest)
    (h : Scoring.isScoreRequest b = true) :
    (∀ questionId answer, Scoring.scoreOf questionId answer =
      Scoring.specScore questionId answer) ∧
    Scoring.scoreRoute b =
      .ok (Scoring.specScore (b.questionId.getD "") (b.answer.getD "")) := by
  have key : ∀ questionId answer, Scoring.scoreOf questionId answer =
      Scoring.specScore questionId answer := by
    intro questionId answer
    unfold Scoring.scoreOf Scoring.specScore
    cases hq : alookup Scoring.QUESTIONS questionId with
    | none => simp [hq]
    | some q =>
      simp only [hq, Option.map_some', Option.getD_some]
      by_cases hc : q.answer.trim.toLower = answer.trim.toLower
      · cases hd : q.difficulty <;>
          simp [Scoring.compareAnswers, hc, hd, Scoring.DIFFICULTY_BONUS]
      · simp [Scoring.compareAnswers, hc]
  refine ⟨key, ?_⟩
  unfold Scoring.scoreRoute
  rw [if_pos h, key]

/-- Witness for `scoring_matches_spec`: a concrete valid request, with a
correct answer differing from the canonical one only in case and surrounding
whitespace. -/
theorem scoring_matches_spec_witness :
    Scoring.isScoreRequest ⟨some "q1", some "u1", some "vocab-1", some " Serendipity "⟩ = true ∧
    Scoring.scoreRoute ⟨some "q1", some "u1", some "vocab-1", some " Serendipity "⟩ =
      .ok (Scoring.specScore "vocab-1" " Serendipity ") := by
  refine ⟨by decide, ?_⟩
  exact (scoring_matches_spec ⟨some "q1", some "u1", some "vocab-1", some " Serendipity "⟩
    (by decide)).2

/-! Helper lemmas about the association-list primitives. -/

/-- Appending a fresh key makes it found. -/
theorem alookup_append_self {β : Type} (l : List (String × β)) (m : String) (v : β)
    (h : alookup l m = none) : alookup (l ++ [(m, v)]) m = some v := by
  induction l with
  | nil => simp [alookup]
  | cons kv rest ih =>
    obtain ⟨k, w⟩ := kv
    by_cases hk : k = m
    · simp [alookup, hk] at h
    · simp only [alookup, List.cons_append, if_neg hk] at h ⊢
      exact ih h

/-- A key is found after appending a singleton exactly when it was already
found or is the appended key. -/
theorem isSome_alookup_append {β : Type} (l : List (String × β)) (m : String)
    (v : β) (id : String) :
    (alookup (l ++ [(m, v)]) id).isSome = true ↔
      (alookup l id).isSome = true ∨ id = m := by
  induction l with
  | nil =>
    by_cases h : m = id
    · simp [alookup, h]
    · simp only [List.nil_append, alookup, if_neg h, Option.isSome_none,
        Bool.false_eq_true, false_or]
      exact iff_of_false (by simp) fun e => h e.symm
  | cons kv rest ih =>
    obtain ⟨k, w⟩ := kv
    by_cases hk : k = id
    · simp [alookup, hk]
    · simp only [alookup, List.cons_append, if_neg hk]
      exact ih

/-- Replacing the value at a present key makes the new value found. -/
theorem alookup_replaceFirst_self {β : Type} (l : List (String × β)) (m : String)
    (v w : β) (h : alookup l m = some v) :
    alookup (replaceFirst l m w) m = some w := by
  induction l with
  | nil => simp [alookup] at h
  | cons kv rest ih =>
    obtain ⟨k, u⟩ := kv
    by_cases hk : k = m
    · simp [alookup, replaceFirst, hk]
    · simp only [alookup, replaceFirst, if_neg hk] at h ⊢
      exact ih h

/-- Replacing a value never changes which keys are found. -/
theorem isSome_alookup_replaceFirst {β : Type} (l : List (String × β))
    (m id : String) (w : β) :
    (alookup (replaceFirst l m w) id).isSome = (alookup l id).isSome := by
  induction l with
  | nil => rfl
  | cons kv rest ih =>
    obtain ⟨k, u⟩ := kv
    by_cases hk : k = m
    · subst hk
      by_cases hid : k = id <;> simp [alookup, replaceFirst, hid]
    · by_cases hid : k = id
      · subst hid
        simp [alookup, replaceFirst, hk]
      · simp [alookup, replaceFirst, hk, hid, ih]

namespace Leaderboard

/-- Score found at the member after `ZADD NX`. -/
theorem alookup_zaddNX_self (board : List (String × Int)) (s : Int) (m : String) :
    alookup (zaddNX board s m) m = some ((alookup board m).getD s) := by
  unfold zaddNX
  cases h : alookup board m with
  | some v => simp [h]
  | none => simp [h, alookup_append_self board m s h]

/-- Keys found after `ZADD NX`. -/
theorem isSome_alookup_zaddNX (board : List (String × Int)) (s : Int)
    (m id : String) :
    (alookup (zaddNX board s m) id).isSome = true ↔
      (alookup board id).isSome = true ∨ id = m := by
  unfold zaddNX
  cases h : alookup board m with
  | some v =>
    constructor
    · exact Or.inl
    · rintro (hh | rfl)
      · exact hh
      · simp [h]
  | none => simpa using isSome_alookup_append board m s id

/-- Score found at the member after `ZINCRBY`: the old score (default 0) plus
the delta. -/
theorem alookup_zincrby_self (board : List (String × Int)) (d : Int) (m : String) :
    alookup (zincrby board d m).1 m = some ((alookup board m).getD 0 + d) := by
  unfold zincrby
  cases h : alookup board m with
  | some s => simpa [h] using alookup_replaceFirst_self board m s (s + d) h
  | none => simpa [h] using alookup_append_self board m d h

/-- Keys found after `ZINCRBY`. -/
theorem isSome_alookup_zincrby (board : List (String × Int)) (d : Int)
    (m id : String) :
    (alookup (zincrby board d m).1 id).isSome = true ↔
      (alookup board id).isSome = true ∨ id = m := by
  unfold zincrby
  cases h : alookup board m with
  | some s =>
    rw [isSome_alookup_replaceFirst]
    constructor
    · exact Or.inl
    · rintro (hh | rfl)
      · exact hh
      · simp [h]
  | none => simpa using isSome_alookup_append board m d id

/-- Value found at the field after `HSET`. -/
theorem alookup_hset_self (h : List (String × String)) (f v : String) :
    alookup (hset h f v) f = some v := by
  unfold hset
  cases hh : alookup h f with
  | some w => simpa using alookup_replaceFirst_self h f w v hh
  | none => simpa using alookup_append_self h f v hh

/-- Keys found after `HSET`. -/
theorem isSome_alookup_hset (h : List (String × String)) (f v id : String) :
    (alookup (hset h f v) id).isSome = true ↔
      (alookup h id).isSome = true ∨ id = f := by
  unfold hset
  cases hh : alookup h f with
  | some w =>
    rw [isSome_alookup_replaceFirst]
    constructor
    · exact Or.inl
    · rintro (h2 | rfl)
      · exact h2
      · simp [hh]
  | none => simpa using isSome_alookup_append h f v id

/-- The lexicographic comparison is transitive. -/
theorem charsLt_trans : ∀ (as bs cs : List Char), charsLt as bs = true →
    charsLt bs cs = true → charsLt as cs = true := by
  intro as
  induction as with
  | nil =>
    intro bs cs h1 h2
    cases bs with
    | nil => simp [charsLt] at h1
    | cons b bs' =>
      cases cs with
      | nil => simp [charsLt] at h2
      | cons c cs' => simp [charsLt]
  | cons a as' ih =>
    intro bs cs h1 h2
    cases bs with
    | nil => simp [charsLt] at h1
    | cons b bs' =>
      cases cs with
      | nil => simp [charsLt] at h2
      | cons c cs' =>
        simp only [charsLt] at h1 h2 ⊢
        rcases lt_trichotomy a b with hab | hab | hab
        · rcases lt_trichotomy b c with hbc | hbc | hbc
          · rw [if_pos (hab.trans hbc)]
          · rw [if_pos (hbc ▸ hab)]
          · rw [if_neg (lt_asymm hbc), if_pos hbc] at h2
            exact absurd h2 (by simp)
        · subst hab
          rw [if_neg (lt_irrefl a), if_neg (lt_irrefl a)] at h1
          rcases lt_trichotomy a c with hac | hac | hac
          · rw [if_pos hac]
          · subst hac
            rw [if_neg (lt_irrefl a), if_neg (lt_irrefl a)] at h2 ⊢
            exact ih bs' cs' h1 h2
          · rw [if_neg (lt_asymm hac), if_pos hac] at h2
            exact absurd h2 (by simp)
        · rw [if_neg (lt_asymm hab), if_pos hab] at h1
          exact absurd h1 (by simp)

/-- The lexicographic comparison is asymmetric. -/
theorem charsLt_asymm : ∀ (as bs : List Char), charsLt as bs = true →
    charsLt bs as = false := by
  intro as
  induction as with
  | nil =>
    intro bs h
    cases bs with
    | nil => simp [charsLt] at h
    | cons b bs' => simp [charsLt]
  | cons a as' ih =>
    intro bs h
    cases bs with
    | nil => simp [charsLt] at h
    | cons b bs' =>
      simp only [charsLt] at h ⊢
      rcases lt_trichotomy a b with hab | hab | hab
      · rw [if_neg (lt_asymm hab), if_pos hab]
      · subst hab
        rw [if_neg (lt_irrefl a), if_neg (lt_irrefl a)] at h ⊢
        exact ih bs' h
      · rw [if_neg (lt_asymm hab), if_pos hab] at h
        exact absurd h (by simp)

/-- Two character lists neither of which is lexicographically below the other
are equal. -/
theorem charsLt_connex : ∀ (as bs : List Char), charsLt as bs = false →
    charsLt bs as = false → as = bs := by
  intro as
  induction as with
  | nil =>
    intro bs h1 _
    cases bs with
    | nil => rfl
    | cons b bs' => simp [charsLt] at h1
  | cons a as' ih =>
    intro bs h1 h2
    cases bs with
    | nil => simp [charsLt] at h2
    | cons b bs' =>
      simp only [charsLt] at h1 h2
      rcases lt_trichotomy a b with hab | hab | hab
      · rw [if_pos hab] at h1
        exact absurd h1 (by simp)
      · subst hab
        rw [if_neg (lt_irrefl a), if_neg (lt_irrefl a)] at h1 h2
        rw [ih bs' h1 h2]
      · rw [if_pos hab] at h2
        exact absurd h2 (by simp)

/-- Unfolded meaning of the `ZREVRANGE` comparison. -/
theorem zrevLE_iff (x y : String × Int) :
    zrevLE x y = true ↔ y.2 < x.2 ∨ (x.2 = y.2 ∧ strLtB x.1 y.1 = false) := by
  simp [zrevLE, Bool.not_eq_true']

/-- The `ZREVRANGE` comparison is transitive. -/
theorem zrevLE_trans (a b c : String × Int) (hab : zrevLE a b = true)
    (hbc : zrevLE b c = true) : zrevLE a c = true := by
  rw [zrevLE_iff] at hab hbc ⊢
  rcases hab with h1 | ⟨e1, l1⟩ <;> rcases hbc with h2 | ⟨e2, l2⟩
  · exact Or.inl (h2.trans h1)
  · exact Or.inl (e2 ▸ h1)
  · exact Or.inl (lt_of_lt_of_eq h2 e1.symm)
  · refine Or.inr ⟨e1.trans e2, ?_⟩
    by_cases hac : strLtB a.1 c.1 = true
    · exfalso
      have hca : charsLt a.1.data c.1.data = true := hac
      have hab0 : charsLt a.1.data b.1.data = false := l1
      have hbc0 : charsLt b.1.data c.1.data = false := l2
      by_cases hba : charsLt b.1.data a.1.data = true
      · have hall := charsLt_trans _ _ _ hba hca
        rw [hall] at hbc0
        exact absurd hbc0 (by simp)
      · have heq := charsLt_connex _ _ hab0 (by simpa using hba)
        rw [heq] at hca
        rw [hca] at hbc0
        exact absurd hbc0 (by simp)
    · simpa using hac

/-- The `ZREVRANGE` comparison is total. -/
theorem zrevLE_total (a b : String × Int) : zrevLE a b || zrevLE b a := by
  simp only [Bool.or_eq_true, zrevLE_iff]
  rcases lt_trichotomy a.2 b.2 with h | h | h
  · exact Or.inr (Or.inl h)
  · by_cases hs : strLtB a.1 b.1 = true
    · exact Or.inr (Or.inr ⟨h.symm, by simpa [strLtB] using charsLt_asymm _ _ (by simpa [strLtB] using hs)⟩)
    · exact Or.inl (Or.inr ⟨h, by simpa using hs⟩)
  · exact Or.inl (Or.inl h)

/-- `ZADD NX` on a member that already has an entry is a no-op. -/
theorem zaddNX_of_found (board : List (String × Int)) (s : Int) (m : String)
    (h : (alookup board m).isSome = true) : zaddNX board s m = board := by
  cases hh : alookup board m with
  | some v => simp only [zaddNX, hh]
  | none => rw [hh] at h; simp at h

/-- Insertion into the sorted board adds one entry. -/
theorem length_insertBoard (x : String × Int) (l : List (String × Int)) :
    (insertBoard x l).length = l.length + 1 := by
  induction l with
  | nil => rfl
  | cons y rest ih =>
    by_cases h : zrevLE x y <;> simp [insertBoard, h, ih]

/-- Sorting the board preserves length. -/
theorem length_sortBoard (l : List (String × Int)) :
    (sortBoard l).length = l.length := by
  induction l with
  | nil => rfl
  | cons x rest ih => simp [sortBoard, length_insertBoard, ih]

/-- Membership in an insertion result. -/
theorem mem_insertBoard (x z : String × Int) (l : List (String × Int))
    (h : z ∈ insertBoard x l) : z = x ∨ z ∈ l := by
  induction l with
  | nil => simpa [insertBoard] using h
  | cons y rest ih =>
    by_cases hc : zrevLE x y
    · simpa [insertBoard, hc, or_assoc] using h
    · simp only [insertBoard, if_neg hc, List.mem_cons] at h
      rcases h with rfl | h
      · exact Or.inr (List.mem_cons_self _ _)
      · rcases ih h with h | h
        · exact Or.inl h
        · exact Or.inr (List.mem_cons_of_mem _ h)

/-- Insertion keeps the board sorted with respect to `zrevLE`. -/
theorem pairwise_insertBoard (x : String × Int) (l : List (String × Int))
    (h : l.Pairwise (fun a b => zrevLE a b = true)) :
    (insertBoard x l).Pairwise (fun a b => zrevLE a b = true) := by
  induction l with
  | nil => simp [insertBoard]
  | cons y rest ih =>
    rw [List.pairwise_cons] at h
    obtain ⟨hy, hrest⟩ := h
    by_cases hc : zrevLE x y
    · rw [insertBoard, if_pos hc, List.pairwise_cons]
      refine ⟨?_, List.Pairwise.cons hy hrest⟩
      intro z hz
      rcases List.mem_cons.mp hz with rfl | hz
      · exact hc
      · exact zrevLE_trans x y z hc (hy z hz)
    · rw [insertBoard, if_neg hc, List.pairwise_cons]
      have hyx : zrevLE y x = true := by
        have := zrevLE_total x y
        rcases Bool.or_eq_true _ _ |>.mp this with h | h
        · exact absurd h hc
        · exact h
      refine ⟨?_, ih hrest⟩
      intro z hz
      rcases mem_insertBoard x z rest hz with rfl | hz
      · exact hyx
      · exact hy z hz

/-- The sorted board is sorted with respect to `zrevLE`. -/
theorem pairwise_sortBoard (l : List (String × Int)) :
    (sortBoard l).Pairwise (fun a b => zrevLE a b = true) := by
  induction l with
  | nil => exact List.Pairwise.nil
  | cons x rest ih => exact pairwise_insertBoard x (sortBoard rest) ih

/-- The rank-attaching loop preserves length. -/
theorem length_withRanks (names : List (String × String)) (i : Nat)
    (l : List (String × Int)) : (withRanks names i l).length = l.length := by
  induction l generalizing i with
  | nil => rfl
  | cons x rest ih =>
    obtain ⟨id, s⟩ := x
    simp [withRanks, ih]

/-- Every row produced by the rank-attaching loop comes from an input pair. -/
theorem mem_withRanks (names : List (String × String)) (i : Nat)
    (l : List (String × Int)) (e : LeaderboardEntry)
    (he : e ∈ withRanks names i l) :
    ∃ x ∈ l, e.userId = x.1 ∧ e.score = x.2 := by
  induction l generalizing i with
  | nil => simp [withRanks] at he
  | cons x rest ih =>
    obtain ⟨id, s⟩ := x
    simp only [withRanks, List.mem_cons] at he
    rcases he with rfl | he
    · exact ⟨(id, s), List.mem_cons_self _ _, rfl, rfl⟩
    · obtain ⟨y, hy, h1, h2⟩ := ih (i + 1) he
      exact ⟨y, List.mem_cons_of_mem _ hy, h1, h2⟩

/-- The rank-attaching loop carries the `ZREVRANGE` order to the rows. -/
theorem pairwise_withRanks (names : List (String × String)) (i : Nat)
    (l : List (String × Int))
    (h : l.Pairwise (fun x y => zrevLE x y = true)) :
    (withRanks names i l).Pairwise entryOrdered := by
  induction l generalizing i with
  | nil => exact List.Pairwise.nil
  | cons x rest ih =>
    obtain ⟨id, s⟩ := x
    rw [List.pairwise_cons] at h
    obtain ⟨hx, hrest⟩ := h
    simp only [withRanks]
    refine List.Pairwise.cons ?_ (ih (i + 1) hrest)
    intro e he
    obtain ⟨y, hy, h1, h2⟩ := mem_withRanks names (i + 1) rest e he
    have hxy := hx y hy
    rw [zrevLE_iff] at hxy
    unfold entryOrdered
    rw [h1, h2]
    exact hxy

end Leaderboard

namespace Leaderboard

/-- A handler whose i-th store call is the first to fail surfaces failure
right there: every earlier call was attempted once, the failing call once,
and nothing afterwards. -/
theorem runCalls_first_fail (i : Nat) :
    ∀ (cmds : List RedisCmd) (f : Nat → Bool), i < cmds.length → f i = true →
      (∀ j, j < i → f j = false) → runCalls cmds f = (i + 1, false) := by
  induction i with
  | zero =>
    intro cmds f hlen hf _
    cases cmds with
    | nil => simp at hlen
    | cons c rest => simp [runCalls, hf]
  | succ k ih =>
    intro cmds f hlen hf hfirst
    cases cmds with
    | nil => simp at hlen
    | cons c rest =>
      have h0 : f 0 = false := hfirst 0 (Nat.succ_pos k)
      have hrec := ih rest (fun j => f (j + 1))
        (Nat.lt_of_succ_lt_succ (by simpa using hlen)) hf
        (fun j hj => hfirst (j + 1) (Nat.succ_lt_succ hj))
      simp [runCalls, h0, hrec]

/-- One engine operation keeps the ranked store and the registry on the same
key set. -/
theorem applyOp_keys (q : String) (st : SessState) (op : Op)
    (h : ∀ i, ((alookup st.board i).isSome = true ↔
      (alookup st.names i).isSome = true)) :
    ∀ i, ((alookup (applyOp q st op).board i).isSome = true ↔
      (alookup (applyOp q st op).names i).isSome = true) := by
  intro i
  cases op with
  | read u => exact h i
  | join b =>
    by_cases hb : isJoinRequest b
    · simp only [applyOp, joinEndpoint, if_pos hb, ensureUser]
      rw [isSome_alookup_zaddNX, isSome_alookup_hset, h i]
    · simp only [applyOp, joinEndpoint, if_neg hb]
      exact h i
  | score b =>
    by_cases hb : isScoreRequest b
    · simp only [applyOp, scoreEndpoint, if_pos hb, ensureUser]
      rw [isSome_alookup_zincrby, isSome_alookup_zaddNX, isSome_alookup_hset, h i]
      tauto
    · simp only [applyOp, scoreEndpoint, if_neg hb]
      exact h i

end Leaderboard

/-! Claim theorems. -/

/-- Counterexample for C1: "alice" joins session q1 first, then "bob"; both
sit at score 0. The leaderboard lists bob before alice (`ZREVRANGE` breaks
score ties by member id descending), while the claimed insertion-order
tie-break demands alice first, so the claimed ordering predicate fails on a
reachable state. -/
theorem topN_tiebreak_join_order_refuted :
    Leaderboard.sortedByScoreThenJoinOrder
      (Leaderboard.run "q1" [.join ⟨some "alice", some "A", none⟩,
        .join ⟨some "bob", some "B", none⟩]).board
      (Leaderboard.buildLeaderboardResponse "q1" none
        (Leaderboard.run "q1" [.join ⟨some "alice", some "A", none⟩,
          .join ⟨some "bob", some "B", none⟩])).leaderboard = false ∧
    (Leaderboard.buildLeaderboardResponse "q1" none
      (Leaderboard.run "q1" [.join ⟨some "alice", some "A", none⟩,
        .join ⟨some "bob", some "B", none⟩])).leaderboard.map
      Leaderboard.LeaderboardEntry.userId = ["bob", "alice"] := by
  constructor
  · rfl
  · rfl

/-- Claim C1 (amended): for every session state, the leaderboard of a
snapshot is sorted descending by score with ties broken by participant id
descending (reverse lexicographic, the `ZREVRANGE` order) — not by join
order — and contains at most `min 20 (number of score entries)` rows, the
top-N size being fixed at 20. -/
theorem topN_sorted_desc_revlex_bounded (q : String) (u : Option String)
    (st : Leaderboard.SessState) :
    ((Leaderboard.buildLeaderboardResponse q u st).leaderboard).Pairwise
      Leaderboard.entryOrdered ∧
    (Leaderboard.buildLeaderboardResponse q u st).leaderboard.length =
      min 20 st.board.length := by
  constructor
  · dsimp only [Leaderboard.buildLeaderboardResponse, Leaderboard.zrevrangeTop]
    apply Leaderboard.pairwise_withRanks
    exact List.Pairwise.sublist (List.take_sublist 20 _)
      (Leaderboard.pairwise_sortBoard st.board)
  · dsimp only [Leaderboard.buildLeaderboardResponse, Leaderboard.zrevrangeTop]
    rw [Leaderboard.length_withRanks, List.length_take, Leaderboard.length_sortBoard]

/-- Counterexample for C4: registering "Alice" and then "Bob" for the same
participant leaves "Bob" stored — `HSET` overwrites, so the first write does
not win. -/
theorem displayName_first_write_refuted :
    alookup (Leaderboard.ensureUser "u1" "Bob"
      (Leaderboard.ensureUser "u1" "Alice" Leaderboard.emptySession)).names "u1" =
      some "Bob" ∧ (some "Bob" : Option String) ≠ some "Alice" := by
  constructor
  · rfl
  · decide

/-- Claim C4 (amended): display-name registration is last-write-wins — after
any registration call, the name just supplied is the one stored, whatever was
registered before. -/
theorem displayName_last_write_wins (uid uname : String)
    (st : Leaderboard.SessState) :
    alookup (Leaderboard.ensureUser uid uname st).names uid = some uname :=
  Leaderboard.alookup_hset_self st.names uid uname

/-- Counterexample for C5: joining twice with the same identity but a
different display name is not a no-op — the second join overwrites the
registered name ("Cat" becomes "Dog"). -/
theorem join_idempotence_refuted :
    alookup ((Leaderboard.joinEndpoint "q2" ⟨some "carol", some "Dog", none⟩
      (Leaderboard.joinEndpoint "q2" ⟨some "carol", some "Cat", none⟩
        Leaderboard.emptySession).1).1).names "carol" = some "Dog" ∧
    alookup ((Leaderboard.joinEndpoint "q2" ⟨some "carol", some "Cat", none⟩
      Leaderboard.emptySession).1).names "carol" = some "Cat" ∧
    ("Dog" : String) ≠ "Cat" := by
  refine ⟨rfl, rfl, ?_⟩
  decide

/-- Claim C5 (amended): joining a second time with the same identity never
changes the ranked store (in particular the participant's score), but the
registered display name becomes the name supplied by the second join; the
call's only other observable result is a fresh snapshot. -/
theorem join_second_preserves_scores (q uid n1 n2 : String)
    (st : Leaderboard.SessState) (h1 : 0 < uid.length) (h2 : 0 < n1.length)
    (h3 : 0 < n2.length) :
    ((Leaderboard.joinEndpoint q ⟨some uid, some n2, none⟩
        (Leaderboard.joinEndpoint q ⟨some uid, some n1, none⟩ st).1).1).board =
      ((Leaderboard.joinEndpoint q ⟨some uid, some n1, none⟩ st).1).board ∧
    alookup ((Leaderboard.joinEndpoint q ⟨some uid, some n2, none⟩
      (Leaderboard.joinEndpoint q ⟨some uid, some n1, none⟩ st).1).1).names uid =
      some n2 := by
  have hv1 : Leaderboard.isJoinRequest ⟨some uid, some n1, none⟩ = true := by
    simp [Leaderboard.isJoinRequest, Scoring.strOk, h1, h2]
  have hv2 : Leaderboard.isJoinRequest ⟨some uid, some n2, none⟩ = true := by
    simp [Leaderboard.isJoinRequest, Scoring.strOk, h1, h3]
  simp only [Leaderboard.joinEndpoint, if_pos hv1, if_pos hv2,
    Leaderboard.ensureUser, Option.getD_some]
  refine ⟨?_, Leaderboard.alookup_hset_self _ uid n2⟩
  apply Leaderboard.zaddNX_of_found
  rw [Leaderboard.alookup_zaddNX_self]
  rfl

/-- Witness for `join_second_preserves_scores` at a concrete double join. -/
theorem join_second_preserves_scores_witness :
    0 < "dave".length ∧
    (((Leaderboard.joinEndpoint "q1" ⟨some "dave", some "D2", none⟩
        (Leaderboard.joinEndpoint "q1" ⟨some "dave", some "D1", none⟩
          Leaderboard.emptySession).1).1).board =
      ((Leaderboard.joinEndpoint "q1" ⟨some "dave", some "D1", none⟩
        Leaderboard.emptySession).1).board ∧
    alookup ((Leaderboard.joinEndpoint "q1" ⟨some "dave", some "D2", none⟩
      (Leaderboard.joinEndpoint "q1" ⟨some "dave", some "D1", none⟩
        Leaderboard.emptySession).1).1).names "dave" = some "D2") :=
  ⟨by decide, join_second_preserves_scores "q1" "dave" "D1" "D2"
    Leaderboard.emptySession (by decide) (by decide) (by decide)⟩

/-- Claim C7 (confirmed): after any sequence of engine operations on a
session, a participant has a score entry in the ranked store exactly when
they are registered in the username registry — the two structures hold the
same key set. -/
theorem board_registry_same_keys (q : String) (ops : List Leaderboard.Op)
    (id : String) :
    (alookup (Leaderboard.run q ops).board id).isSome =
      (alookup (Leaderboard.run q ops).names id).isSome := by
  have main : ∀ (l : List Leaderboard.Op) (st : Leaderboard.SessState),
      (∀ i, ((alookup st.board i).isSome = true ↔
        (alookup st.names i).isSome = true)) →
      ∀ i, ((alookup (l.foldl (Leaderboard.applyOp q) st).board i).isSome = true ↔
        (alookup (l.foldl (Leaderboard.applyOp q) st).names i).isSome = true) := by
    intro l
    induction l with
    | nil => intro st h i; exact h i
    | cons op rest ih =>
      intro st h i
      exact ih (Leaderboard.applyOp q st op) (Leaderboard.applyOp_keys q st op h) i
  rw [Bool.eq_iff_iff]
  exact main ops Leaderboard.emptySession
    (fun i => by simp [Leaderboard.emptySession, alookup]) id

/-- Counterexample for C2: the handler discards `ZINCRBY`'s return value and
re-reads the score via `ZSCORE` when building the response. With an initial
score of 0, a delta of +50 whose increment returns 50, and a concurrent +30
for the same participant landing between the increment and the re-read, the
returned snapshot carries 80 — not the 50 the atomic increment returned. -/
theorem recordDelta_own_score_reread_refuted :
    (Leaderboard.zincrby (Leaderboard.ensureUser "alice" "Alice"
      Leaderboard.emptySession).board 50 "alice").2 = 50 ∧
    (Leaderboard.buildLeaderboardResponse "q1" (some "alice")
      ⟨(Leaderboard.zincrby (Leaderboard.zincrby (Leaderboard.ensureUser "alice"
          "Alice" Leaderboard.emptySession).board 50 "alice").1 30 "alice").1,
        (Leaderboard.ensureUser "alice" "Alice"
          Leaderboard.emptySession).names⟩).userScore = 80 ∧
    ((80 : Int) ≠ 50) := by
  refine ⟨rfl, rfl, by decide⟩

/-- Claim C2 (amended): the handler re-reads the score with `ZSCORE` after the
increment instead of using `ZINCRBY`'s return value, so the response reflects
the store at re-read time; only in the absence of concurrent writes does the
returned own-score equal the old score plus this call's delta, as proved here
for the sequential execution. -/
theorem recordDelta_own_score_sequential (q uid uname : String) (d : Int)
    (st : Leaderboard.SessState) (hu : 0 < uid.length) (hn : 0 < uname.length) :
    Leaderboard.userScoreOf
      (Leaderboard.scoreEndpoint q ⟨some uid, some uname, some d⟩ st).2 =
      some ((alookup st.board uid).getD 0 + d) := by
  have hvalid : Leaderboard.isScoreRequest ⟨some uid, some uname, some d⟩ = true := by
    simp [Leaderboard.isScoreRequest, Leaderboard.isJoinRequest, Scoring.strOk, hu, hn]
  have hne : uid ≠ "" := by
    intro e
    rw [e] at hu
    exact absurd hu (by decide)
  simp only [Leaderboard.scoreEndpoint, if_pos hvalid, Leaderboard.ensureUser,
    Option.getD_some, Leaderboard.userScoreOf, Leaderboard.buildLeaderboardResponse,
    if_neg hne]
  rw [Leaderboard.alookup_zincrby_self, Leaderboard.alookup_zaddNX_self]
  simp

/-- Witness for `recordDelta_own_score_sequential` on a fresh session. -/
theorem recordDelta_own_score_sequential_witness :
    0 < "eve".length ∧
    Leaderboard.userScoreOf
      (Leaderboard.scoreEndpoint "q1" ⟨some "eve", some "E", some 7⟩
        Leaderboard.emptySession).2 =
      some ((alookup Leaderboard.emptySession.board "eve").getD 0 + 7) :=
  ⟨by decide, recordDelta_own_score_sequential "q1" "eve" "E" 7
    Leaderboard.emptySession (by decide) (by decide)⟩

/-- Counterexample for C3: a successful score request issues exactly the
commands of `scoreCmds`, and no publish on any pub/sub channel is among
them — the service never publishes a change event. -/
theorem recordDelta_no_publish_refuted :
    Leaderboard.dispatchTrace
      (.score "q1" ⟨some "alice", some "Alice", some 50⟩) =
      Leaderboard.scoreCmds ∧
    Leaderboard.RedisCmd.publish ∉ Leaderboard.scoreCmds := by
  refine ⟨rfl, by decide⟩

/-- Claim C3 (amended): a successful answer submission publishes nothing on
any pub/sub channel; instead the gateway instance that handled it emits one
`leaderboard_update` to its own Socket.IO room for the quiz, so only clients
connected to that instance receive the update. -/
theorem submitAnswer_local_emit_only (quizId userId username questionId
    answer : String) (st : Leaderboard.SessState)
    (h1 : 0 < quizId.length) (h2 : 0 < userId.length) (h3 : 0 < username.length)
    (h4 : 0 < questionId.length) (h5 : 0 < answer.length) :
    ((Realtime.submitAnswer ⟨some quizId, some userId, some username,
        some questionId, some answer⟩ st).2.2).map
      (fun e => (e.room, e.event)) =
      [(Realtime.makeRoomId quizId, "leaderboard_update")] ∧
    Leaderboard.RedisCmd.publish ∉ Leaderboard.dispatchTrace
      (.score quizId ⟨some userId, some username,
        some (Scoring.scoreOf questionId answer).delta⟩) := by
  have hsp : Realtime.isSubmitPayload ⟨some quizId, some userId, some username,
      some questionId, some answer⟩ = true := by
    simp [Realtime.isSubmitPayload, Scoring.strOk, h1, h2, h3, h4, h5]
  have hsr : Scoring.isScoreRequest ⟨some quizId, some userId, some questionId,
      some answer⟩ = true := by
    simp [Scoring.isScoreRequest, Scoring.strOk, h1, h2, h4, h5]
  have hlv : Leaderboard.isScoreRequest ⟨some userId, some username,
      some (Scoring.scoreOf questionId answer).delta⟩ = true := by
    simp [Leaderboard.isScoreRequest, Leaderboard.isJoinRequest, Scoring.strOk, h2, h3]
  have hq : quizId ≠ "" := by
    intro e
    rw [e] at h1
    exact absurd h1 (by decide)
  constructor
  · simp only [Realtime.submitAnswer, if_pos hsp, Scoring.scoreRoute, if_pos hsr,
      Option.getD_some, Leaderboard.scoreEndpoint, if_pos hlv, List.map]
  · simp only [Leaderboard.dispatchTrace, if_neg hq, if_pos hlv]
    decide

/-- Witness for `submitAnswer_local_emit_only` on a concrete submission. -/
theorem submitAnswer_local_emit_only_witness :
    0 < "vocab-1".length ∧
    (((Realtime.submitAnswer ⟨some "q1", some "u7", some "U", some "vocab-1",
        some "wrong"⟩ Leaderboard.emptySession).2.2).map
      (fun e => (e.room, e.event)) =
      [(Realtime.makeRoomId "q1", "leaderboard_update")] ∧
    Leaderboard.RedisCmd.publish ∉ Leaderboard.dispatchTrace
      (.score "q1" ⟨some "u7", some "U",
        some (Scoring.scoreOf "vocab-1" "wrong").delta⟩)) :=
  ⟨by decide, submitAnswer_local_emit_only "q1" "u7" "U" "vocab-1" "wrong"
    Leaderboard.emptySession (by decide) (by decide) (by decide) (by decide)
    (by decide)⟩

/-- Counterexample for C6: an oracle under which only the very first store
call fails — any retry, indexed 1 or later, would succeed. The handler
nevertheless surfaces failure after exactly one attempted call: there is no
retry and no backoff. -/
theorem store_failure_retry_refuted :
    Leaderboard.runCalls Leaderboard.scoreCmds (fun i => i == 0) = (1, false) ∧
    (fun i => i == 0) 1 = false := by
  exact ⟨rfl, rfl⟩

/-- Claim C6 (amended): a transient store failure is surfaced immediately and
is never silently swallowed, but with no retry at all: when the i-th store
call of a score request is the first to fail, the handler stops right there,
having attempted each call at most once, and reports failure (the 500 path,
distinct from success). -/
theorem store_failure_fail_fast (f : Nat → Bool) (i : Nat)
    (hi : i < Leaderboard.scoreCmds.length) (hf : f i = true)
    (hfirst : ∀ j, j < i → f j = false) :
    Leaderboard.runCalls Leaderboard.scoreCmds f = (i + 1, false) :=
  Leaderboard.runCalls_first_fail i Leaderboard.scoreCmds f hi hf hfirst

/-- Witness for `store_failure_fail_fast` with the third call failing. -/
theorem store_failure_fail_fast_witness :
    (2 < Leaderboard.scoreCmds.length ∧ (fun i => i == 2) 2 = true) ∧
    Leaderboard.runCalls Leaderboard.scoreCmds (fun i => i == 2) = (3, false) :=
  ⟨⟨by decide, rfl⟩, store_failure_fail_fast (fun i => i == 2) 2 (by decide) rfl
    (by decide)⟩

/-- Claim C8 (confirmed): a snapshot read for a participant who never joined
succeeds with requester score 0 and leaves the session state exactly as it
was — the read creates no score entry and no registry entry. -/
theorem snapshot_unknown_gives_zero_no_write (q uid : String)
    (st : Leaderboard.SessState) (h : alookup st.board uid = none) :
    (Leaderboard.getEndpoint q (some uid) st).1 = st ∧
    Leaderboard.userScoreOf (Leaderboard.getEndpoint q (some uid) st).2 =
      some 0 := by
  refine ⟨rfl, ?_⟩
  simp only [Leaderboard.getEndpoint, Leaderboard.userScoreOf,
    Leaderboard.buildLeaderboardResponse]
  by_cases he : uid = ""
  · rw [if_pos he]
  · rw [if_neg he, h]
    rfl

/-- Witness for `snapshot_unknown_gives_zero_no_write`: "bob" never joined
the session "alice" joined. -/
theorem snapshot_unknown_gives_zero_no_write_witness :
    alookup (Leaderboard.ensureUser "alice" "A"
      Leaderboard.emptySession).board "bob" = none ∧
    ((Leaderboard.getEndpoint "q1" (some "bob")
        (Leaderboard.ensureUser "alice" "A" Leaderboard.emptySession)).1 =
      Leaderboard.ensureUser "alice" "A" Leaderboard.emptySession ∧
    Leaderboard.userScoreOf (Leaderboard.getEndpoint "q1" (some "bob")
      (Leaderboard.ensureUser "alice" "A" Leaderboard.emptySession)).2 =
      some 0) :=
  ⟨rfl, snapshot_unknown_gives_zero_no_write "q1" "bob"
    (Leaderboard.ensureUser "alice" "A" Leaderboard.emptySession) rfl⟩

/-- Claim C9 (confirmed): a join or score request with an empty session id
(no route matches, the Express default 404 answers) or an empty/missing
participant id (the payload guard answers 400) is rejected with the state
untouched, no store call is issued (so nothing is retried), and the result is
distinguishable from both success and the 500 transient-failure shape. -/
theorem invalid_identifier_rejected (q : String) (b : Leaderboard.ReqBody)
    (st : Leaderboard.SessState)
    (h : q = "" ∨ b.userId = none ∨ b.userId = some "") :
    (Leaderboard.dispatch (.join q b) st).1 = st ∧
    (Leaderboard.dispatch (.score q b) st).1 = st ∧
    Leaderboard.isClientReject (Leaderboard.dispatch (.join q b) st).2 = true ∧
    Leaderboard.isClientReject (Leaderboard.dispatch (.score q b) st).2 = true ∧
    Leaderboard.dispatchTrace (.join q b) = [] ∧
    Leaderboard.dispatchTrace (.score q b) = [] := by
  by_cases hq : q = ""
  · simp [Leaderboard.dispatch, Leaderboard.dispatchTrace, hq,
      Leaderboard.isClientReject]
  · have hj : Leaderboard.isJoinRequest b = false := by
      rcases h with h | h | h
      · exact absurd h hq
      · simp [Leaderboard.isJoinRequest, Scoring.strOk, h]
      · simp [Leaderboard.isJoinRequest, Scoring.strOk, h]
    have hs : Leaderboard.isScoreRequest b = false := by
      simp [Leaderboard.isScoreRequest, hj]
    simp [Leaderboard.dispatch, Leaderboard.dispatchTrace, hq, hj, hs,
      Leaderboard.joinEndpoint, Leaderboard.scoreEndpoint,
      Leaderboard.isClientReject]

/-- Witness for `invalid_identifier_rejected`: an empty participant id. -/
theorem invalid_identifier_rejected_witness :
    ("q1" = "" ∨ (⟨some "", some "n", none⟩ : Leaderboard.ReqBody).userId = none ∨
      (⟨some "", some "n", none⟩ : Leaderboard.ReqBody).userId = some "") ∧
    ((Leaderboard.dispatch (.join "q1" ⟨some "", some "n", none⟩)
        Leaderboard.emptySession).1 = Leaderboard.emptySession ∧
    (Leaderboard.dispatch (.score "q1" ⟨some "", some "n", none⟩)
        Leaderboard.emptySession).1 = Leaderboard.emptySession ∧
    Leaderboard.isClientReject (Leaderboard.dispatch
      (.join "q1" ⟨some "", some "n", none⟩) Leaderboard.emptySession).2 = true ∧
    Leaderboard.isClientReject (Leaderboard.dispatch
      (.score "q1" ⟨some "", some "n", none⟩) Leaderboard.emptySession).2 = true ∧
    Leaderboard.dispatchTrace (.join "q1" ⟨some "", some "n", none⟩) = [] ∧
    Leaderboard.dispatchTrace (.score "q1" ⟨some "", some "n", none⟩) = []) :=
  ⟨Or.inr (Or.inr rfl), invalid_identifier_rejected "q1" ⟨some "", some "n", none⟩
    Leaderboard.emptySession (Or.inr (Or.inr rfl))⟩
